import Mathlib

/-!
# Verification of the urban-dna-api optimization core

Shallow embedding of the core algorithms of the repository:
`src/core/models/point.py`, `src/core/algorithms/optimizer.py`,
`src/core/algorithms/prioritizer.py`, `src/core/algorithms/distance.py`.

Modelling conventions:
* Python `int` is modelled as `ℤ`; Python `float` is modelled as `ℚ` where the
  value is produced by exact small-integer arithmetic (urgency scores,
  coordinates), and distances are kept abstract: the optimizer's per-instance
  distance primitive `_get_distance` (a memoized haversine) is modelled as a
  parameter `d : P → P → α` into a linearly ordered additive group, so the
  theorems hold for the real haversine instantiation and remain executable
  at `α = ℚ`.  The memoization cache itself is modelled explicitly where a
  claim is about it.
* `datetime` values are modelled by their day number (`ℤ`); the only use in
  the embedded code is `(reference_date - point.created_at).days`.
* Python dicts keyed by `Priority` are modelled as `Priority → Option (List _)`
  (`none` = key absent); dicts built by appending in iteration order are
  modelled as association lists in the same order.
* External libraries (sklearn DBSCAN, networkx MST/DFS) are modelled as
  opaque function parameters; the embedded repository code around them is
  faithful, and every theorem quantifies over those parameters.
-/

set_option linter.unusedSectionVars false

namespace UrbanDna

open scoped List

/-- `ProblemType` enumeration from `src/core/models/point.py`. -/
inductive ProblemType where
  | buraco_asfalto | vazamento_agua | vazamento_esgoto | poste_sem_luz
  | fiacao_exposta | bueiro_entupido | calcada_quebrada | semaforo_defeito
  deriving DecidableEq, Repr

/-- `Priority` enumeration from `src/core/models/point.py`. -/
inductive Priority where
  | EMERGENCIA | URGENTE | ALTA | MEDIA | BAIXA
  deriving DecidableEq, Repr

/-- Numeric value of each `Priority` member (`Priority.EMERGENCIA = 5`, …). -/
def Priority.value : Priority → ℤ
  | .EMERGENCIA => 5
  | .URGENTE => 4
  | .ALTA => 3
  | .MEDIA => 2
  | .BAIXA => 1

/-- `TeamType` enumeration from `src/core/models/point.py`. -/
inductive TeamType where
  | ASFALTO | HIDRAULICA | ELETRICA | SANEAMENTO | GERAL
  deriving DecidableEq, Repr

/-- The frozen dataclass `MaintenancePoint` from `src/core/models/point.py`.
Coordinates are `ℚ` (exact floats), `estimated_time`/`complaints_count` are
Python ints (`ℤ`), `created_at` is the creation day number, and `id` is the
optional storage identifier. -/
structure MaintenancePoint where
  latitude : ℚ
  longitude : ℚ
  address : String
  problem_type : ProblemType
  priority : Priority
  team_type : TeamType
  problem_size : String
  estimated_time : ℤ
  neighborhood : String
  region : String
  id : Option String := none
  main_road : Bool := false
  complaints_count : ℤ := 0
  affects_traffic : Bool := false
  affects_commerce : Bool := false
  near_critical : Bool := false
  requires_road_block : Bool := false
  dependencies : List String := []
  materials : List String := []
  photos : List String := []
  created_at : ℤ := 0
  status : String := "aberto"
  observations : String := ""
  deriving DecidableEq, Repr

instance : Inhabited MaintenancePoint :=
  ⟨{ latitude := 0, longitude := 0, address := "",
     problem_type := ProblemType.buraco_asfalto, priority := Priority.BAIXA,
     team_type := TeamType.GERAL, problem_size := "",
     estimated_time := 0, neighborhood := "", region := "" }⟩

/-- `MaintenancePoint.coordinates` property: the `(latitude, longitude)` pair. -/
def MaintenancePoint.coordinates (p : MaintenancePoint) : ℚ × ℚ :=
  (p.latitude, p.longitude)

/-- `MaintenancePoint.urgency_score` property: weighted score, multiplied by
`0.8` when `estimated_time > 120` (float `0.8` modelled exactly as `4/5`). -/
def MaintenancePoint.urgency_score (p : MaintenancePoint) : ℚ :=
  let s : ℚ := p.priority.value * 100 + p.complaints_count * 10
    + (if p.near_critical then 50 else 0)
    + (if p.main_road then 30 else 0)
    + (if p.affects_traffic then 25 else 0)
    + (if p.affects_commerce then 20 else 0)
  if p.estimated_time > 120 then s * (4 / 5) else s

/-! ## Budget selector (`TagBasedOptimizer._select_points_by_priority`) -/

/-- The `priority_order` list in `_select_points_by_priority`
(`src/core/algorithms/optimizer.py`, lines 96–102). -/
def priority_order : List Priority :=
  [Priority.EMERGENCIA, Priority.URGENTE, Priority.ALTA, Priority.MEDIA,
   Priority.BAIXA]

/-- `points.sort(key=lambda p: p.urgency_score, reverse=True)`: a stable sort,
descending by urgency score. -/
def sortByUrgencyDesc (ps : List MaintenancePoint) : List MaintenancePoint :=
  ps.mergeSort (fun p q => decide (q.urgency_score ≤ p.urgency_score))

/-- The inner `for point in points` loop of `_select_points_by_priority`
(lines 112–119): admit the point when `time_used + estimated_time + 10`
fits, otherwise `break` out of the tier.  State is the selected list and
`time_used`. -/
def selectFromTier (maxMinutes : ℤ) :
    List MaintenancePoint → List MaintenancePoint × ℤ →
    List MaintenancePoint × ℤ
  | [], st => st
  | p :: ps, (sel, t) =>
    let time_needed := p.estimated_time + 10
    if t + time_needed ≤ maxMinutes then
      selectFromTier maxMinutes ps (sel ++ [p], t + time_needed)
    else
      (sel, t)

/-- The outer `for priority in priority_order` loop of
`_select_points_by_priority` (lines 104–122): skip absent tiers, sort the
tier by urgency descending, run the inner loop, and stop entirely once
`time_used >= max_minutes`. -/
def selectTiers (g : Priority → Option (List MaintenancePoint))
    (maxMinutes : ℤ) :
    List Priority → List MaintenancePoint × ℤ → List MaintenancePoint × ℤ
  | [], st => st
  | pr :: prs, (sel, t) =>
    match g pr with
    | none => selectTiers g maxMinutes prs (sel, t)
    | some ps =>
      let st' := selectFromTier maxMinutes (sortByUrgencyDesc ps) (sel, t)
      if maxMinutes ≤ st'.2 then st'
      else selectTiers g maxMinutes prs st'

/-- `TagBasedOptimizer._select_points_by_priority` (lines 89–124).  The
`priority_groups` dict is the function `g` (`none` = key absent). -/
def select_points_by_priority (g : Priority → Option (List MaintenancePoint))
    (maxMinutes : ℤ) : List MaintenancePoint :=
  (selectTiers g maxMinutes priority_order ([], 0)).1

/-- Total budget consumption of a selection: `Σ (estimated_time + 10)`. -/
def sumNeeds (sel : List MaintenancePoint) : ℤ :=
  (sel.map (fun p => p.estimated_time + 10)).sum

/-! ## Memoized distance (`TagBasedOptimizer._get_distance`, lines 251–258)

The per-instance dict `self.distance_cache` is modelled as an association
list; `haversine_distance` is the parameter `hav` (the repository computes it
with float trigonometry over the coordinates, which only matters through the
values `hav` returns).  `get_distance` returns the value together with the
updated cache. -/

/-- `_get_distance`: look up `(p1.id, p2.id)` in the cache, computing and
storing `hav(p1.coordinates, p2.coordinates)` on a miss. -/
def get_distance {α : Type} (hav : ℚ × ℚ → ℚ × ℚ → α)
    (cache : List ((Option String × Option String) × α))
    (p1 p2 : MaintenancePoint) :
    α × List ((Option String × Option String) × α) :=
  let cache_key := (p1.id, p2.id)
  match cache.find? (fun e => decide (e.1 = cache_key)) with
  | some e => (e.2, cache)
  | none =>
    (hav p1.coordinates p2.coordinates,
     (cache_key, hav p1.coordinates p2.coordinates) :: cache)

/-- The points of an optimizer instance have pairwise-distinct ids. -/
def DistinctIds (points : List MaintenancePoint) : Prop :=
  ∀ p ∈ points, ∀ q ∈ points, p.id = q.id → p = q

/-- Cache coherence: every stored entry holds the distance of the coordinate
pair of some points of the instance carrying those ids. -/
def CacheOK {α : Type} (hav : ℚ × ℚ → ℚ × ℚ → α)
    (points : List MaintenancePoint)
    (cache : List ((Option String × Option String) × α)) : Prop :=
  ∀ e ∈ cache, ∀ p ∈ points, ∀ q ∈ points,
    e.1 = (p.id, q.id) → e.2 = hav p.coordinates q.coordinates

/-! ## 2-opt refiner (`TagBasedOptimizer._two_opt_improvement`, lines 220–249)

The route element type is abstract (`P`); the distance primitive
`self._get_distance` is the parameter `d : P → P → α` (see `get_distance`:
with pairwise-distinct ids it is exactly the haversine of the coordinates).
`α` is a linearly ordered additive commutative group, covering both the real
instantiation and executable rational test distances.  The `while improved`
loop terminates only because the distance is symmetric (each accepted swap
strictly shortens the open path), so the Lean loop carries that fact as the
argument `hd`. -/

section TwoOpt

variable {P : Type} [Inhabited P] {α : Type} [LinearOrderedAddCommGroup α]

/-- Python slice assignment `current_route[i:j] = reversed(current_route[i:j])`. -/
def reverseSegment (l : List P) (i j : ℕ) : List P :=
  l.take i ++ ((l.drop i).take (j - i)).reverse ++ l.drop j

/-- Body of the innermost 2-opt loop for one index pair `(i, j)`
(lines 232–247): skip when `j - i == 1`, otherwise compare the two old edges
against the two candidate edges (the second endpoint is `j % n`) and reverse
the segment `[i, j)` on strict improvement.  The state is
`(current_route, improved)`. -/
def twoOptStep (d : P → P → α) (st : List P × Bool) (ij : ℕ × ℕ) :
    List P × Bool :=
  if ij.2 - ij.1 = 1 then st
  else
    let cur := st.1
    let n := cur.length
    let old_distance := d (cur.getI (ij.1 - 1)) (cur.getI ij.1)
      + d (cur.getI (ij.2 - 1)) (cur.getI (ij.2 % n))
    let new_distance := d (cur.getI (ij.1 - 1)) (cur.getI (ij.2 - 1))
      + d (cur.getI ij.1) (cur.getI (ij.2 % n))
    if new_distance < old_distance then (reverseSegment cur ij.1 ij.2, true)
    else st

/-- The index pairs enumerated by the nested loops
`for i in range(1, n - 2): for j in range(i + 1, n)` (lines 230–231),
in iteration order. -/
def scanPairs (n : ℕ) : List (ℕ × ℕ) :=
  (List.range' 1 (n - 3)).flatMap fun i =>
    (List.range' (i + 1) (n - 1 - i)).map fun j => (i, j)

/-- One full pass of the `while improved` body: fold the step over all
scanned pairs, starting from `(route, improved := False)`. -/
def twoOptPass (d : P → P → α) (r : List P) : List P × Bool :=
  (scanPairs r.length).foldl (twoOptStep d) (r, false)

/-- Sum of distances over consecutive elements of a route (the open path;
the loop of `_calculate_total_distance` before the closing edge). -/
def pathLength (d : P → P → α) : List P → α
  | a :: b :: t => d a b + pathLength d (b :: t)
  | _ => 0

/-- Termination measure for the 2-opt loop: the number of permutations of
the current route whose open path is strictly shorter. -/
def permsBelow (d : P → P → α) (r : List P) : ℕ :=
  (r.permutations.filter fun l =>
    decide (pathLength d l < pathLength d r)).length

theorem pathLength_append_cons (d : P → P → α) :
    ∀ (xs : List P) (a : P) (ys : List P),
      pathLength d (xs ++ a :: ys)
        = pathLength d (xs ++ [a]) + pathLength d (a :: ys)
  | [], a, ys => by simp [pathLength]
  | [x], a, ys => by simp [pathLength, add_assoc]
  | x :: x' :: xs, a, ys => by
    have ih := pathLength_append_cons d (x' :: xs) a ys
    simp only [List.cons_append, List.append_eq, pathLength] at ih ⊢
    rw [ih, add_assoc]

theorem pathLength_concat_pair (d : P → P → α) (xs : List P) (a e : P) :
    pathLength d (xs ++ [a, e]) = pathLength d (xs ++ [a]) + d a e := by
  have h := pathLength_append_cons d xs a [e]
  simpa [pathLength] using h

theorem pathLength_reverse (d : P → P → α) (hd : ∀ a b, d a b = d b a) :
    ∀ l : List P, pathLength d l.reverse = pathLength d l
  | [] => rfl
  | [_] => rfl
  | a :: b :: t => by
    have ih := pathLength_reverse d hd (b :: t)
    have h1 : (a :: b :: t).reverse = t.reverse ++ [b, a] := by simp
    have h2 : (b :: t).reverse = t.reverse ++ [b] := by simp
    rw [h1, pathLength_concat_pair, ← h2, ih, hd b a]
    exact add_comm _ _

theorem pathLength_cons_ne_nil (d : P → P → α) (a : P) {l : List P}
    (h : l ≠ []) : pathLength d (a :: l) = d a l.headI + pathLength d l := by
  cases l with
  | nil => exact absurd rfl h
  | cons b t => rfl

theorem pathLength_block (d : P → P → α) (A : List P) (a m : P) (ms : List P)
    (e : P) (C : List P) :
    pathLength d (A ++ a :: (m :: ms) ++ e :: C)
      = pathLength d (A ++ [a]) + d a m + pathLength d ((m :: ms) ++ [e])
        + pathLength d (e :: C) := by
  have h1 := pathLength_append_cons d A a ((m :: ms) ++ e :: C)
  have h2 : pathLength d (a :: ((m :: ms) ++ e :: C))
      = d a m + pathLength d ((m :: ms) ++ e :: C) := rfl
  have h3 := pathLength_append_cons d (m :: ms) e C
  simp only [List.append_assoc, List.cons_append] at h1 h2 h3 ⊢
  rw [h1, h2, h3, ← add_assoc, ← add_assoc]

/-- Path of a nonempty list followed by one element: the new edge goes from
the last element of `M` (the head of `M.reverse`). -/
theorem pathLength_append_one (d : P → P → α) (hd : ∀ a b, d a b = d b a)
    {M : List P} (hM : M ≠ []) (e : P) :
    pathLength d (M ++ [e]) = d e M.reverse.headI + pathLength d M := by
  have h1 : M ++ [e] = (e :: M.reverse).reverse := by simp
  have h2 : M.reverse ≠ [] := by simpa using hM
  rw [h1, pathLength_reverse d hd, pathLength_cons_ne_nil d e h2,
    pathLength_reverse d hd]

theorem pathLength_reverse_append_one (d : P → P → α)
    (hd : ∀ a b, d a b = d b a) {M : List P} (hM : M ≠ []) (e : P) :
    pathLength d (M.reverse ++ [e]) = d e M.headI + pathLength d M := by
  have h2 : M.reverse ≠ [] := by simpa using hM
  rw [pathLength_append_one d hd h2 e, List.reverse_reverse,
    pathLength_reverse d hd]

/-- The 2-opt exchange identity: reversing the middle block replaces the two
boundary edges and keeps everything else (distances being symmetric). -/
theorem pathLength_swap (d : P → P → α) (hd : ∀ a b, d a b = d b a)
    (A : List P) (a m : P) (ms : List P) (e : P) (C : List P) :
    pathLength d (A ++ a :: (m :: ms).reverse ++ e :: C)
        + (d a m + d (m :: ms).reverse.headI e)
      = pathLength d (A ++ a :: (m :: ms) ++ e :: C)
        + (d a (m :: ms).reverse.headI + d m e) := by
  have hM : (m :: ms) ≠ [] := by simp
  have hMr : (m :: ms).reverse ≠ [] := by simp
  obtain ⟨c, cs, hc⟩ := List.exists_cons_of_ne_nil hMr
  have hchead : (m :: ms).reverse.headI = c := by rw [hc]; rfl
  have hblockR : pathLength d (A ++ a :: (m :: ms).reverse ++ e :: C)
      = pathLength d (A ++ [a]) + d a c
        + pathLength d ((m :: ms).reverse ++ [e]) + pathLength d (e :: C) := by
    rw [hc]; exact pathLength_block d A a c cs e C
  have hblockO : pathLength d (A ++ a :: (m :: ms) ++ e :: C)
      = pathLength d (A ++ [a]) + d a m
        + pathLength d ((m :: ms) ++ [e]) + pathLength d (e :: C) :=
    pathLength_block d A a m ms e C
  have hR : pathLength d ((m :: ms).reverse ++ [e])
      = d e m + pathLength d (m :: ms) := by
    have := pathLength_reverse_append_one d hd hM e
    simpa using this
  have hO : pathLength d ((m :: ms) ++ [e])
      = d e c + pathLength d (m :: ms) := by
    have := pathLength_append_one d hd hM e
    rw [hchead] at this
    exact this
  rw [hblockR, hblockO, hR, hO, hchead, hd e m, hd e c]
  abel

theorem headI_eq_getI_zero {x : List P} (hx : x ≠ []) : x.headI = x.getI 0 := by
  cases x with
  | nil => exact absurd rfl hx
  | cons a t => rfl

theorem mem_scanPairs (n i j : ℕ) :
    (i, j) ∈ scanPairs n ↔ 1 ≤ i ∧ i + 3 ≤ n ∧ i + 1 ≤ j ∧ j + 1 ≤ n := by
  simp only [scanPairs, List.mem_flatMap, List.mem_map, List.mem_range',
    Prod.mk.injEq]
  constructor
  · rintro ⟨i', ⟨ki, hki, rfl⟩, j', ⟨kj, hkj, rfl⟩, rfl, rfl⟩
    omega
  · rintro ⟨h1, h2, h3, h4⟩
    exact ⟨i, ⟨i - 1, by omega, by omega⟩, j, ⟨j - i - 1, by omega, by omega⟩,
      rfl, rfl⟩

/-- Slice decomposition of a route around a 2-opt exchange at
`1 ≤ i`, `i + 2 ≤ j`, `j < l.length`: the route splits as
prefix, the fixed element at `i-1`, the reversed block `[i, j)` (nonempty,
with identified first and last elements), the fixed element at `j`, suffix. -/
theorem route_decomp (l : List P) (i j : ℕ) (h1 : 1 ≤ i) (h2 : i + 2 ≤ j)
    (h3 : j < l.length) :
    ∃ (A : List P) (m : P) (ms : List P) (C : List P),
      l = A ++ l.getI (i - 1) :: (m :: ms) ++ l.getI j :: C ∧
      reverseSegment l i j
        = A ++ l.getI (i - 1) :: (m :: ms).reverse ++ l.getI j :: C ∧
      m = l.getI i ∧ (m :: ms).reverse.headI = l.getI (j - 1) := by
  obtain ⟨k, hk⟩ : ∃ k, j = i + 2 + k := ⟨j - i - 2, by omega⟩
  have hi1 : i - 1 < l.length := by omega
  have hii : i < l.length := by omega
  have hj1 : j - 1 < l.length := by omega
  have hms0len : ((l.drop (i + 1)).take k).length = k := by
    rw [List.length_take, List.length_drop]; omega
  have ht : l.take i = l.take (i - 1) ++ [l.getI (i - 1)] := by
    have h := @List.take_succ P l (i - 1)
    rw [show i - 1 + 1 = i from by omega] at h
    rw [h, List.getElem?_eq_getElem hi1, List.getI_eq_getElem _ hi1]
    rfl
  have hdropj1 : l.drop (j - 1) = l.getI (j - 1) :: l.drop j := by
    have h := List.drop_eq_getElem_cons hj1
    rw [show j - 1 + 1 = j from by omega] at h
    rw [h, List.getI_eq_getElem _ hj1]
  have hdropi : l.drop i
      = (l.getI i :: ((l.drop (i + 1)).take k ++ [l.getI (j - 1)]))
        ++ l.drop j := by
    have hsplit : l.drop (i + 1) = (l.drop (i + 1)).take k ++ l.drop (j - 1) := by
      conv_lhs => rw [← List.take_append_drop k (l.drop (i + 1))]
      rw [List.drop_drop, show i + 1 + k = j - 1 from by omega]
    calc l.drop i = l.getI i :: l.drop (i + 1) := by
          rw [List.drop_eq_getElem_cons hii, List.getI_eq_getElem _ hii]
      _ = l.getI i :: ((l.drop (i + 1)).take k ++ l.drop (j - 1)) := by
          conv_lhs => rw [hsplit]
      _ = l.getI i
          :: ((l.drop (i + 1)).take k ++ (l.getI (j - 1) :: l.drop j)) := by
          rw [hdropj1]
      _ = _ := by simp
  have hdropj : l.drop j = l.getI j :: l.drop (j + 1) := by
    rw [List.drop_eq_getElem_cons h3, List.getI_eq_getElem _ h3]
  refine ⟨l.take (i - 1), l.getI i, (l.drop (i + 1)).take k ++ [l.getI (j - 1)],
    l.drop (j + 1), ?_, ?_, rfl, ?_⟩
  · calc l = l.take i ++ l.drop i := (List.take_append_drop _ _).symm
      _ = _ := by rw [ht, hdropi, hdropj]; simp
  · have hseg : (l.drop i).take (j - i)
        = l.getI i :: ((l.drop (i + 1)).take k ++ [l.getI (j - 1)]) := by
      rw [hdropi]
      refine List.take_left' ?_
      simp only [List.length_cons, List.length_append, List.length_cons,
        List.length_nil, hms0len]
      omega
    rw [reverseSegment, hseg, ht, hdropj]
    simp
  · simp

/-- Head of a list of the shape appearing in the decomposition. -/
theorem head?_shape (A : List P) (x : P) (Z : List P) (y : P) (C : List P) :
    ((A ++ x :: Z) ++ y :: C).head? = A.head?.or (some x) := by
  simp [List.head?_append]

/-- Last of a list of the shape appearing in the decomposition. -/
theorem getLast?_shape (W : List P) (y : P) (C : List P) :
    (W ++ y :: C).getLast? = (y :: C).getLast? := by
  rw [List.getLast?_append]
  obtain ⟨v, hv⟩ := Option.isSome_iff_exists.1
    (List.getLast?_isSome.2 (by simp) : (y :: C).getLast?.isSome)
  rw [hv]
  rfl

/-- Invariant carried through one 2-opt pass, relative to the route `r₀` the
pass started from. -/
def StepInv (d : P → P → α) (r₀ : List P) (st : List P × Bool) : Prop :=
  st.1 ~ r₀ ∧ st.1.head? = r₀.head? ∧ st.1.getLast? = r₀.getLast? ∧
    (st.2 = false → st.1 = r₀) ∧
    (st.2 = true → pathLength d st.1 < pathLength d r₀)

theorem twoOptStep_eq (d : P → P → α) (st : List P × Bool) (i j : ℕ)
    (hskip : ¬j - i = 1) :
    twoOptStep d st (i, j)
      = if d (st.1.getI (i - 1)) (st.1.getI (j - 1))
            + d (st.1.getI i) (st.1.getI (j % st.1.length))
          < d (st.1.getI (i - 1)) (st.1.getI i)
            + d (st.1.getI (j - 1)) (st.1.getI (j % st.1.length))
        then (reverseSegment st.1 i j, true) else st := by
  simp only [twoOptStep, if_neg hskip]

theorem stepInv_preserved (d : P → P → α) (hd : ∀ a b, d a b = d b a)
    (r₀ : List P) {ij : ℕ × ℕ} (hij : ij ∈ scanPairs r₀.length)
    {st : List P × Bool} (h : StepInv d r₀ st) :
    StepInv d r₀ (twoOptStep d st ij) := by
  obtain ⟨i, j⟩ := ij
  obtain ⟨hb1, hb2, hb3, hb4⟩ := (mem_scanPairs _ _ _).1 hij
  by_cases hskip : j - i = 1
  · simpa [twoOptStep, hskip] using h
  obtain ⟨hperm, hhead, hlast, hfalse, htrue⟩ := h
  have hlen : st.1.length = r₀.length := hperm.length_eq
  have hjlt : j < st.1.length := by omega
  have hmod : j % st.1.length = j := Nat.mod_eq_of_lt hjlt
  rw [twoOptStep_eq d st i j hskip, hmod]
  obtain ⟨A, m, ms, C, hdec, hrev, hm, hc⟩ :=
    route_decomp st.1 i j (by omega) (by omega) hjlt
  by_cases himp : d (st.1.getI (i - 1)) (st.1.getI (j - 1))
        + d (st.1.getI i) (st.1.getI j)
      < d (st.1.getI (i - 1)) (st.1.getI i)
        + d (st.1.getI (j - 1)) (st.1.getI j)
  · rw [if_pos himp]
    have hcur_le : pathLength d st.1 ≤ pathLength d r₀ := by
      rcases hb : st.2 with _ | _
      · exact le_of_eq (congrArg (pathLength d) (hfalse hb))
      · exact le_of_lt (htrue hb)
    have hswap := pathLength_swap d hd A (st.1.getI (i - 1)) m ms (st.1.getI j) C
    rw [hc, ← hdec, ← hrev, hm] at hswap
    have hdecr : pathLength d (reverseSegment st.1 i j) < pathLength d st.1 := by
      have h7 : pathLength d (reverseSegment st.1 i j)
            + (d (st.1.getI (i - 1)) (st.1.getI (j - 1))
              + d (st.1.getI i) (st.1.getI j))
          < pathLength d (reverseSegment st.1 i j)
            + (d (st.1.getI (i - 1)) (st.1.getI i)
              + d (st.1.getI (j - 1)) (st.1.getI j)) :=
        add_lt_add_left himp _
      rw [hswap] at h7
      exact lt_of_add_lt_add_right h7
    refine ⟨?_, ?_, ?_, by simp, fun _ => lt_of_lt_of_le hdecr hcur_le⟩
    · have hp : reverseSegment st.1 i j ~ st.1 := by
        rw [hrev]
        conv_rhs => rw [hdec]
        exact List.Perm.append_right _
          (List.Perm.append_left A (List.Perm.cons _ (m :: ms).reverse_perm))
      exact hp.trans hperm
    · have hh : (reverseSegment st.1 i j).head? = st.1.head? := by
        rw [hrev]
        conv_rhs => rw [hdec]
        rw [head?_shape, head?_shape]
      exact hh.trans hhead
    · have hl : (reverseSegment st.1 i j).getLast? = st.1.getLast? := by
        rw [hrev]
        conv_rhs => rw [hdec]
        rw [getLast?_shape, getLast?_shape]
      exact hl.trans hlast
  · rw [if_neg himp]
    exact ⟨hperm, hhead, hlast, hfalse, htrue⟩

theorem foldl_preserve {σ ι : Type} (f : σ → ι → σ) (Q : σ → Prop) :
    ∀ (l : List ι) (s : σ), Q s → (∀ s x, x ∈ l → Q s → Q (f s x)) →
      Q (l.foldl f s)
  | [], _, hs, _ => hs
  | x :: l, s, hs, hstep =>
    foldl_preserve f Q l (f s x) (hstep s x (by simp) hs)
      (fun s' y hy hQ => hstep s' y (by simp [hy]) hQ)

theorem twoOptPass_inv (d : P → P → α) (hd : ∀ a b, d a b = d b a)
    (r : List P) : StepInv d r (twoOptPass d r) := by
  refine foldl_preserve _ _ _ _ ⟨List.Perm.refl r, rfl, rfl, fun _ => rfl,
    by simp⟩ ?_
  exact fun st ij hij hQ => stepInv_preserved d hd r hij hQ

theorem filter_length_mono {β : Type} (p q : β → Bool) :
    ∀ L : List β, (∀ x ∈ L, p x = true → q x = true) →
      (L.filter p).length ≤ (L.filter q).length
  | [], _ => le_refl _
  | y :: L, h => by
    have ih := filter_length_mono p q L (fun x hx => h x (by simp [hx]))
    by_cases hp : p y = true
    · rw [List.filter_cons_of_pos hp, List.filter_cons_of_pos (h y (by simp) hp)]
      simpa using ih
    · rw [List.filter_cons_of_neg (by simpa using hp)]
      by_cases hq : q y = true
      · rw [List.filter_cons_of_pos hq]
        exact le_trans ih (by simp)
      · rw [List.filter_cons_of_neg (by simpa using hq)]
        exact ih

theorem filter_length_strict {β : Type} (p q : β → Bool) :
    ∀ L : List β, (∀ x ∈ L, p x = true → q x = true) →
      ∀ x₀ ∈ L, q x₀ = true → p x₀ = false →
      (L.filter p).length < (L.filter q).length
  | [], _, _, hx, _, _ => absurd hx (List.not_mem_nil _)
  | y :: L, h, x₀, hx, hq, hp => by
    rcases List.mem_cons.1 hx with rfl | hxL
    · rw [List.filter_cons_of_neg (by simp [hp]), List.filter_cons_of_pos hq]
      have := filter_length_mono p q L (fun x hxm => h x (by simp [hxm]))
      simpa using Nat.lt_succ_of_le this
    · have ih := filter_length_strict p q L
        (fun x hxm => h x (by simp [hxm])) x₀ hxL hq hp
      by_cases hpy : p y = true
      · rw [List.filter_cons_of_pos hpy, List.filter_cons_of_pos (h y (by simp) hpy)]
        simpa using ih
      · rw [List.filter_cons_of_neg (by simpa using hpy)]
        by_cases hqy : q y = true
        · rw [List.filter_cons_of_pos hqy]
          exact lt_of_lt_of_le ih (by simp)
        · rw [List.filter_cons_of_neg (by simpa using hqy)]
          exact ih

theorem permsBelow_lt (d : P → P → α) {r r' : List P} (hperm : r' ~ r)
    (hlt : pathLength d r' < pathLength d r) :
    permsBelow d r' < permsBelow d r := by
  unfold permsBelow
  have h1 : (r'.permutations.filter fun l =>
        decide (pathLength d l < pathLength d r')).length
      = (r.permutations.filter fun l =>
        decide (pathLength d l < pathLength d r')).length :=
    (hperm.permutations.filter _).length_eq
  rw [h1]
  refine filter_length_strict _ _ r.permutations ?_ r' ?_ ?_ ?_
  · intro x _ hlt'
    simp only [decide_eq_true_eq] at hlt' ⊢
    exact lt_trans hlt' hlt
  · exact List.mem_permutations.2 hperm
  · simp only [decide_eq_true_eq]
    exact hlt
  · simp

/-- The `while improved` loop of `_two_opt_improvement` (lines 228–247):
repeat the pass while it reports an improvement.  Termination rests on the
symmetry of the distance (`hd`): every accepted exchange strictly shortens
the open path, so the measure `permsBelow` strictly decreases. -/
def twoOptLoop (d : P → P → α) (hd : ∀ a b, d a b = d b a) (r : List P) :
    List P :=
  if h : (twoOptPass d r).2 = true then twoOptLoop d hd (twoOptPass d r).1
  else (twoOptPass d r).1
termination_by permsBelow d r
decreasing_by
  have inv := twoOptPass_inv d hd r
  exact permsBelow_lt d inv.1 (inv.2.2.2.2 h)

/-- `TagBasedOptimizer._two_opt_improvement` (lines 220–249): routes shorter
than 4 are returned unchanged, otherwise the pass loop runs to a fixpoint. -/
def two_opt_improvement (d : P → P → α) (hd : ∀ a b, d a b = d b a)
    (route : List P) : List P :=
  if route.length < 4 then route else twoOptLoop d hd route

/-- `TagBasedOptimizer._calculate_total_distance` (lines 269–280): `0` for
fewer than two stops, otherwise consecutive distances plus the closing edge
from the last point back to the first. -/
def calculate_total_distance (d : P → P → α) (route : List P) : α :=
  if route.length < 2 then 0
  else pathLength d route + d route.getLastI route.headI

theorem twoOptLoop_spec (d : P → P → α) (hd : ∀ a b, d a b = d b a)
    (r : List P) :
    twoOptLoop d hd r ~ r ∧ (twoOptLoop d hd r).head? = r.head?
      ∧ (twoOptLoop d hd r).getLast? = r.getLast?
      ∧ pathLength d (twoOptLoop d hd r) ≤ pathLength d r
      ∧ twoOptPass d (twoOptLoop d hd r) = (twoOptLoop d hd r, false) := by
  suffices H : ∀ (N : ℕ) (r : List P), permsBelow d r = N →
      twoOptLoop d hd r ~ r ∧ (twoOptLoop d hd r).head? = r.head?
        ∧ (twoOptLoop d hd r).getLast? = r.getLast?
        ∧ pathLength d (twoOptLoop d hd r) ≤ pathLength d r
        ∧ twoOptPass d (twoOptLoop d hd r) = (twoOptLoop d hd r, false) by
    exact H _ r rfl
  intro N
  induction N using Nat.strong_induction_on with
  | _ N IH =>
    intro r hN
    have inv := twoOptPass_inv d hd r
    by_cases hb : (twoOptPass d r).2 = true
    · have hL : twoOptLoop d hd r = twoOptLoop d hd (twoOptPass d r).1 := by
        rw [twoOptLoop]
        rw [dif_pos hb]
      have hlt : permsBelow d (twoOptPass d r).1 < N := by
        rw [← hN]
        exact permsBelow_lt d inv.1 (inv.2.2.2.2 hb)
      obtain ⟨ih1, ih2, ih3, ih4, ih5⟩ := IH _ hlt (twoOptPass d r).1 rfl
      rw [hL]
      exact ⟨ih1.trans inv.1, ih2.trans inv.2.1, ih3.trans inv.2.2.1,
        le_trans ih4 (le_of_lt (inv.2.2.2.2 hb)), ih5⟩
    · have hb' : (twoOptPass d r).2 = false := by
        simpa using hb
      have hr : (twoOptPass d r).1 = r := inv.2.2.2.1 hb'
      have hL : twoOptLoop d hd r = r := by
        rw [twoOptLoop]
        rw [dif_neg hb]
        exact hr
      rw [hL]
      exact ⟨List.Perm.refl r, rfl, rfl, le_refl _, Prod.ext hr hb'⟩

end TwoOpt

/-! ## Route pipeline (`TagBasedOptimizer.optimize_route`, lines 26–60) -/

section Pipeline

variable {α : Type} [LinearOrderedAddCommGroup α]

/-- The `RouteResult` dataclass (optimizer.py lines 12–19); the statistics
dict holds named integer aggregates. -/
structure RouteResult (α : Type) where
  route : List MaintenancePoint
  total_distance : α
  total_time : ℤ
  team_type : TeamType
  statistics : List (String × ℤ)
  deriving Repr

/-- `_group_by_priority` (lines 62–69): a dict keyed by priority holding the
points of that priority in input order (`none` = key absent). -/
def group_by_priority (points : List MaintenancePoint) :
    Priority → Option (List MaintenancePoint) := fun pr =>
  let l := points.filter (fun p => decide (p.priority = pr))
  if l.isEmpty then none else some l

/-- `_create_geographical_clusters` (lines 71–87): fewer than 2 points form
the single cluster `{0: points}`; otherwise sklearn DBSCAN (an external
library) groups them — modelled by the parameter `dbscan`, returning the
dict `label ↦ members` as an association list. -/
def create_geographical_clusters
    (dbscan : List MaintenancePoint → List (ℤ × List MaintenancePoint))
    (points : List MaintenancePoint) : List (ℤ × List MaintenancePoint) :=
  if points.length < 2 then [(0, points)] else dbscan points

/-- The `point_to_cluster` dict of `_optimize_clusters` (lines 132–135):
built by iterating the clusters in order (a later cluster overwrites a
repeated id); `.get(point.id, -1)` returns `-1` for unknown ids. -/
def point_to_cluster (clusters : List (ℤ × List MaintenancePoint))
    (p : MaintenancePoint) : ℤ :=
  match clusters.reverse.find?
      (fun c => c.2.any (fun q => decide (q.id = p.id))) with
  | some c => c.1
  | none => -1

/-- The `selected_clusters` dict of `_optimize_clusters` (lines 137–142):
group the selected points by cluster id, keys in first-occurrence order,
appending within each group. -/
def group_by_cluster (ptc : MaintenancePoint → ℤ) :
    List MaintenancePoint → List (ℤ × List MaintenancePoint) →
    List (ℤ × List MaintenancePoint)
  | [], acc => acc
  | p :: ps, acc =>
    if acc.any (fun c => decide (c.1 = ptc p)) then
      group_by_cluster ptc ps
        (acc.map (fun c => if c.1 = ptc p then (c.1, c.2 ++ [p]) else c))
    else
      group_by_cluster ptc ps (acc ++ [(ptc p, [p])])

/-- Python `min(unvisited, key=f)`: the first element attaining the minimal
key (the iteration order of the Python set is abstracted as list order; no
claim here depends on tie-breaking). -/
def minByKey (f : MaintenancePoint → α) (x : MaintenancePoint)
    (xs : List MaintenancePoint) : MaintenancePoint :=
  xs.foldl (fun best y => if f y < f best then y else best) x

theorem minByKey_mem (f : MaintenancePoint → α) :
    ∀ (xs : List MaintenancePoint) (x), minByKey f x xs ∈ x :: xs
  | [], x => by simp [minByKey]
  | y :: ys, x => by
    have ih := minByKey_mem f ys (if f y < f x then y else x)
    simp only [minByKey, List.foldl_cons] at ih ⊢
    by_cases hc : f y < f x
    · rw [if_pos hc] at ih ⊢
      rcases List.mem_cons.1 ih with h | h
      · simp [h]
      · simp [h]
    · rw [if_neg hc] at ih ⊢
      rcases List.mem_cons.1 ih with h | h
      · simp [h]
      · simp [h]

/-- The `while unvisited` loop of `_nearest_neighbor` (lines 162–169). -/
def nnLoop (d : MaintenancePoint → MaintenancePoint → α)
    (route : List MaintenancePoint) (current : MaintenancePoint) :
    List MaintenancePoint → List MaintenancePoint
  | [] => route
  | u :: us =>
    nnLoop d (route ++ [minByKey (d current) u us]) (minByKey (d current) u us)
      ((u :: us).erase (minByKey (d current) u us))
termination_by unvisited => unvisited.length
decreasing_by
  have hm : minByKey (d current) u us ∈ u :: us := minByKey_mem (d current) us u
  rw [List.length_erase_of_mem hm]
  simp

/-- `_nearest_neighbor` (lines 155–171): at most one point is returned
unchanged, otherwise start at the first point and repeatedly append the
closest unvisited point. -/
def nearest_neighbor (d : MaintenancePoint → MaintenancePoint → α)
    (points : List MaintenancePoint) : List MaintenancePoint :=
  match points with
  | [] => []
  | [p] => [p]
  | p :: rest => nnLoop d [p] p rest

/-- `_optimize_clusters` (lines 126–153): group the selected points by their
cluster id and build a nearest-neighbor tour per cluster.  The worker pool
submits one task per group and collects results in submission order, so the
output is the per-group tours in group order. -/
def optimize_clusters (d : MaintenancePoint → MaintenancePoint → α)
    (points : List MaintenancePoint)
    (clusters : List (ℤ × List MaintenancePoint)) :
    List (List MaintenancePoint) :=
  (group_by_cluster (point_to_cluster clusters) points []).map
    (fun c => nearest_neighbor d c.2)

/-- `_connect_clusters` (lines 173–218): zero cluster routes give the empty
route, a single one is returned as-is; with two or more, the centroid
complete graph, minimum spanning tree and DFS preorder (networkx, an
external library) are modelled by the parameter `connectMulti`. -/
def connect_clusters
    (connectMulti : List (List MaintenancePoint) → Option MaintenancePoint →
      List MaintenancePoint)
    (cluster_routes : List (List MaintenancePoint))
    (start_point : Option MaintenancePoint) : List MaintenancePoint :=
  match cluster_routes with
  | [] => []
  | [r] => r
  | rs => connectMulti rs start_point

/-- `_generate_statistics` (lines 282–296): the empty dict for an empty
route, otherwise the eight derived aggregates. -/
def generate_statistics (route : List MaintenancePoint) :
    List (String × ℤ) :=
  if route.isEmpty then []
  else
    [("total_points", (route.length : ℤ)),
     ("emergencies", ((route.filter
        (fun p => decide (p.priority = Priority.EMERGENCIA))).length : ℤ)),
     ("urgent", ((route.filter
        (fun p => decide (p.priority = Priority.URGENTE))).length : ℤ)),
     ("complaints_resolved", (route.map (fun p => p.complaints_count)).sum),
     ("main_roads", ((route.filter (fun p => p.main_road)).length : ℤ)),
     ("critical_locations",
      ((route.filter (fun p => p.near_critical)).length : ℤ)),
     ("neighborhoods",
      ((route.map (fun p => p.neighborhood)).dedup.length : ℤ)),
     ("road_blocks_needed",
      ((route.filter (fun p => p.requires_road_block)).length : ℤ))]

/-- `TagBasedOptimizer.optimize_route` (lines 26–60).  `d` models the
instance's `_get_distance` together with its symmetry `hd` (required for the
2-opt loop to terminate); `dbscan` and `connectMulti` model the external
sklearn/networkx calls. -/
def optimize_route (d : MaintenancePoint → MaintenancePoint → α)
    (hd : ∀ a b, d a b = d b a)
    (dbscan : List MaintenancePoint → List (ℤ × List MaintenancePoint))
    (connectMulti : List (List MaintenancePoint) → Option MaintenancePoint →
      List MaintenancePoint)
    (points : List MaintenancePoint) (team_type : TeamType) (max_hours : ℤ)
    (start_point : Option MaintenancePoint) : RouteResult α :=
  let team_points := points.filter (fun p => decide (p.team_type = team_type))
  if team_points.isEmpty then ⟨[], 0, 0, team_type, []⟩
  else
    let priority_groups := group_by_priority team_points
    let clusters := create_geographical_clusters dbscan team_points
    let selected_points :=
      select_points_by_priority priority_groups (max_hours * 60)
    let cluster_routes := optimize_clusters d selected_points clusters
    let final_route := connect_clusters connectMulti cluster_routes start_point
    let final_route2 := two_opt_improvement d hd final_route
    ⟨final_route2, calculate_total_distance d final_route2,
     (final_route2.map (fun p => p.estimated_time)).sum, team_type,
     generate_statistics final_route2⟩

end Pipeline

/-! ## Prioritizer and load balancer (`src/core/algorithms/prioritizer.py`)

Scores are exact rationals (the Python floats are produced by small-integer
arithmetic and the weight `-0.2 = -1/5`); `haversine_distance` is again the
parameter `hav`; `datetime` values are day numbers, so
`(reference_date - point.created_at).days = reference - created_at`. -/

section Prioritizer

variable {α : Type} [LinearOrderedField α]

/-- The `PriorityScore` dataclass (prioritizer.py lines 10–17). -/
structure PriorityScore where
  point : MaintenancePoint
  score : ℚ
  factors : List (String × ℚ)
  deriving DecidableEq, Repr

/-- One `clusters[key].append(value)` update of the `defaultdict(list)` in
`_create_proximity_clusters`; the dict is a function of the key, so two
points sharing an id share the same cluster list, exactly as in Python. -/
def appendAt (m : Option String → List MaintenancePoint) (k : Option String)
    (v : MaintenancePoint) : Option String → List MaintenancePoint :=
  fun k' => if k' = k then m k ++ [v] else m k'

/-- Inner loop of `_create_proximity_clusters` for a fixed `point1`: pair it
with each later point whose distance is at most `radius_km`. -/
def proxInner (hav : ℚ × ℚ → ℚ × ℚ → α) (radius_km : α)
    (p1 : MaintenancePoint) :
    List MaintenancePoint → (Option String → List MaintenancePoint) →
    (Option String → List MaintenancePoint)
  | [], m => m
  | p2 :: rest, m =>
    if hav p1.coordinates p2.coordinates ≤ radius_km then
      proxInner hav radius_km p1 rest (appendAt (appendAt m p1.id p2) p2.id p1)
    else
      proxInner hav radius_km p1 rest m

/-- `_create_proximity_clusters` (lines 99–113): the `O(n²)` pairwise scan
over index pairs `i < j`. -/
def create_proximity_clusters (hav : ℚ × ℚ → ℚ × ℚ → α) (radius_km : α) :
    List MaintenancePoint → (Option String → List MaintenancePoint) →
    (Option String → List MaintenancePoint)
  | [], m => m
  | p1 :: rest, m =>
    create_proximity_clusters hav radius_km rest
      (proxInner hav radius_km p1 rest m)

/-- The per-point factor accumulation of `calculate_priority_scores`
(lines 51–95); the score is the sum of the recorded factor values, exactly
as the running `score +=` accumulates them. -/
def score_point (clusterSize : ℕ) (reference : ℤ) (p : MaintenancePoint) :
    PriorityScore :=
  let days_waiting : ℤ := reference - p.created_at
  let factors : List (String × ℚ) :=
    [("priority_base", (p.priority.value : ℚ) * 100)]
    ++ (if p.complaints_count > 0 then
          [("complaints", (p.complaints_count : ℚ) * 10)] else [])
    ++ (if p.near_critical then [("critical_location", 50)] else [])
    ++ (if p.main_road then [("main_road", 30)] else [])
    ++ (if p.affects_traffic then [("traffic_impact", 25)] else [])
    ++ (if p.affects_commerce then [("commerce_impact", 20)] else [])
    ++ (if days_waiting > 0 then
          [("time_waiting", (days_waiting : ℚ) * 2)] else [])
    ++ (if clusterSize > 1 then
          [("cluster_bonus", ((clusterSize : ℚ) - 1) * 15)] else [])
    ++ (if p.estimated_time > 120 then
          [("efficiency_penalty", ((p.estimated_time : ℚ) - 120) * (-(1 / 5)))]
        else [])
  ⟨p, (factors.map (fun f => f.2)).sum, factors⟩

/-- `sorted(scores)` under `PriorityScore.__lt__` (`self.score > other.score`):
a stable sort, descending by score. -/
def sortScores (scores : List PriorityScore) : List PriorityScore :=
  scores.mergeSort (fun a b => decide (b.score ≤ a.score))

/-- `calculate_priority_scores` (lines 40–97) with the default
`radius_km = 0.5`; `reference` models the `reference_date` argument
(defaulting to `datetime.now()`). -/
def calculate_priority_scores (hav : ℚ × ℚ → ℚ × ℚ → α) (reference : ℤ)
    (points : List MaintenancePoint) : List PriorityScore :=
  let clusters := create_proximity_clusters hav (1 / 2) points (fun _ => [])
  sortScores (points.map
    (fun p => score_point (clusters p.id).length reference p))

/-- `heapq.heappop` on a heap of `(accumulated_time, crew_index)` pairs:
remove and return the lexicographically smallest pair; popping an empty heap
raises `IndexError`. -/
def heap_pop (h : List (ℤ × ℕ)) : Except String ((ℤ × ℕ) × List (ℤ × ℕ)) :=
  match h with
  | [] => Except.error "IndexError: index out of range"
  | x :: xs =>
    let m := xs.foldl (fun best y =>
      if decide (y.1 < best.1 ∨ (y.1 = best.1 ∧ y.2 < best.2)) then y
      else best) x
    Except.ok (m, (x :: xs).erase m)

/-- The per-crew-type assignment loop of `optimize_team_schedule`
(lines 140–148): pop the least-loaded crew; if the point fits, append it to
that crew's list and push the crew back with `time + estimated_time + 10`;
otherwise the point is dropped — and so is the popped crew entry, which is
never pushed back. -/
def balance_team (max_time : ℤ) :
    List PriorityScore → List (ℤ × ℕ) → List (List MaintenancePoint) →
    Except String (List (List MaintenancePoint))
  | [], _, scheds => Except.ok scheds
  | s :: rest, heap, scheds =>
    match heap_pop heap with
    | Except.error e => Except.error e
    | Except.ok ((current_time, team_idx), heap') =>
      if current_time + s.point.estimated_time ≤ max_time then
        balance_team max_time rest
          (heap' ++ [(current_time + s.point.estimated_time + 10, team_idx)])
          (scheds.set team_idx (scheds.getD team_idx [] ++ [s.point]))
      else
        balance_team max_time rest heap' scheds

/-- The `for team_type, num_teams in teams.items()` loop (lines 128–150):
skip a crew type with no points, otherwise run the assignment loop starting
from `num_teams` crews at time `0`. -/
def schedule_teams (max_time : ℤ) (byTeam : TeamType → List PriorityScore) :
    List (TeamType × ℕ) → List (TeamType × List (List MaintenancePoint)) →
    Except String (List (TeamType × List (List MaintenancePoint)))
  | [], acc => Except.ok acc
  | (tt, n) :: rest, acc =>
    if (byTeam tt).isEmpty then schedule_teams max_time byTeam rest acc
    else
      match balance_team max_time (byTeam tt)
          ((List.range n).map (fun i => ((0 : ℤ), i)))
          (List.replicate n []) with
      | Except.error e => Except.error e
      | Except.ok scheds =>
        schedule_teams max_time byTeam rest (acc ++ [(tt, scheds)])

/-- `optimize_team_schedule` (lines 115–152).  An uncaught `IndexError` from
`heappop` surfaces as `Except.error`; a normal return is `Except.ok`. -/
def optimize_team_schedule (hav : ℚ × ℚ → ℚ × ℚ → α) (reference : ℤ)
    (points : List MaintenancePoint) (teams : List (TeamType × ℕ))
    (work_hours : ℤ) :
    Except String (List (TeamType × List (List MaintenancePoint))) :=
  let scored := calculate_priority_scores hav reference points
  schedule_teams (work_hours * 60)
    (fun tt => scored.filter (fun s => decide (s.point.team_type = tt)))
    teams []

end Prioritizer

/-! ## Selector facts (claims C1, C4) -/

theorem sumNeeds_append (a b : List MaintenancePoint) :
    sumNeeds (a ++ b) = sumNeeds a + sumNeeds b := by
  simp [sumNeeds]

theorem selectFromTier_inv (maxm : ℤ) :
    ∀ (ps sel : List MaintenancePoint) (t : ℤ), sumNeeds sel = t → t ≤ maxm →
      sumNeeds (selectFromTier maxm ps (sel, t)).1
          = (selectFromTier maxm ps (sel, t)).2
        ∧ (selectFromTier maxm ps (sel, t)).2 ≤ maxm
  | [], sel, t, hs, ht => by
    rw [selectFromTier]
    exact ⟨hs, ht⟩
  | p :: ps, sel, t, hs, ht => by
    rw [selectFromTier]
    by_cases hfit : t + (p.estimated_time + 10) ≤ maxm
    · rw [if_pos hfit]
      exact selectFromTier_inv maxm ps (sel ++ [p]) (t + (p.estimated_time + 10))
        (by rw [sumNeeds_append, hs]; simp [sumNeeds]) hfit
    · rw [if_neg hfit]
      exact ⟨hs, ht⟩

theorem selectTiers_inv (g : Priority → Option (List MaintenancePoint))
    (maxm : ℤ) :
    ∀ (prs : List Priority) (sel : List MaintenancePoint) (t : ℤ),
      sumNeeds sel = t → t ≤ maxm →
      sumNeeds (selectTiers g maxm prs (sel, t)).1
          = (selectTiers g maxm prs (sel, t)).2
        ∧ (selectTiers g maxm prs (sel, t)).2 ≤ maxm
  | [], sel, t, hs, ht => by
    rw [selectTiers]
    exact ⟨hs, ht⟩
  | pr :: prs, sel, t, hs, ht => by
    rw [selectTiers]
    cases hg : g pr with
    | none =>
      exact selectTiers_inv g maxm prs sel t hs ht
    | some ps =>
      obtain ⟨h1, h2⟩ := selectFromTier_inv maxm (sortByUrgencyDesc ps) sel t hs ht
      by_cases hstop : maxm ≤ (selectFromTier maxm (sortByUrgencyDesc ps) (sel, t)).2
      · simp only [if_pos hstop]
        exact ⟨h1, h2⟩
      · simp only [if_neg hstop]
        exact selectTiers_inv g maxm prs
          (selectFromTier maxm (sortByUrgencyDesc ps) (sel, t)).1
          (selectFromTier maxm (sortByUrgencyDesc ps) (sel, t)).2 h1 h2

/-- C4: for every per-priority grouping of points and every (non-negative)
budget in minutes, the subset returned by `_select_points_by_priority`
satisfies `Σ (estimated_time + 10) ≤ budget`. -/
theorem select_budget_bound (g : Priority → Option (List MaintenancePoint))
    (maxMinutes : ℤ) (h : 0 ≤ maxMinutes) :
    sumNeeds (select_points_by_priority g maxMinutes) ≤ maxMinutes := by
  obtain ⟨h1, h2⟩ := selectTiers_inv g maxMinutes priority_order [] 0 rfl h
  unfold select_points_by_priority
  rw [h1]
  exact h2

/-- Witness for `select_budget_bound` at a concrete grouping and budget. -/
theorem select_budget_bound_witness :
    (0 : ℤ) ≤ 60 ∧ sumNeeds (select_points_by_priority (fun _ => none) 60) ≤ 60 :=
  ⟨by decide, select_budget_bound (fun _ => none) 60 (by decide)⟩

/-- Evaluation of `mergeSort` on a two-element list. -/
theorem mergeSort_pair {β : Type} (le : β → β → Bool) (a b : β) :
    [a, b].mergeSort le = if le a b then [a, b] else [b, a] := by
  rw [List.mergeSort]
  simp [List.merge]

/-- First point of the C1 counterexample tier: urgency 600, needs 110 min. -/
def cxPointA : MaintenancePoint :=
  { latitude := 0, longitude := 0, address := "Rua A",
    problem_type := ProblemType.buraco_asfalto,
    priority := Priority.EMERGENCIA, team_type := TeamType.ASFALTO,
    problem_size := "grande", estimated_time := 100,
    neighborhood := "Centro", region := "Centro", id := some "a",
    complaints_count := 10 }

/-- Second point of the C1 counterexample tier: urgency 500, needs 30 min. -/
def cxPointB : MaintenancePoint :=
  { latitude := 0, longitude := 0, address := "Rua B",
    problem_type := ProblemType.buraco_asfalto,
    priority := Priority.EMERGENCIA, team_type := TeamType.ASFALTO,
    problem_size := "pequeno", estimated_time := 20,
    neighborhood := "Centro", region := "Centro", id := some "b" }

/-- C1 counterexample grouping: a single tier with the long point first. -/
def cxGroupsC1 : Priority → Option (List MaintenancePoint) := fun pr =>
  if pr = Priority.EMERGENCIA then some [cxPointA, cxPointB] else none

theorem cx_sort_eval :
    sortByUrgencyDesc [cxPointA, cxPointB] = [cxPointA, cxPointB] := by
  rw [sortByUrgencyDesc, mergeSort_pair, if_pos]
  simp only [decide_eq_true_eq]
  norm_num [MaintenancePoint.urgency_score, cxPointA, cxPointB, Priority.value]

/-- C1 counterexample: with a 60-minute budget and the single tier
`[A (110 min, score 600), B (30 min, score 500)]`, the selector returns `[]`:
after rejecting `A` it abandons the tier, even though `B` fits
(`0 + 20 + 10 ≤ 60`), contradicting the claimed skip-and-continue scan. -/
theorem selectTiers_cons_some {g : Priority → Option (List MaintenancePoint)}
    {maxm : ℤ} {pr : Priority} {prs : List Priority}
    {sel : List MaintenancePoint} {t : ℤ} {ps : List MaintenancePoint}
    (hg : g pr = some ps) :
    selectTiers g maxm (pr :: prs) (sel, t)
      = if maxm ≤ (selectFromTier maxm (sortByUrgencyDesc ps) (sel, t)).2
        then selectFromTier maxm (sortByUrgencyDesc ps) (sel, t)
        else selectTiers g maxm prs
          (selectFromTier maxm (sortByUrgencyDesc ps) (sel, t)) := by
  rw [selectTiers, hg]

theorem selectTiers_cons_none {g : Priority → Option (List MaintenancePoint)}
    {maxm : ℤ} {pr : Priority} {prs : List Priority}
    {sel : List MaintenancePoint} {t : ℤ} (hg : g pr = none) :
    selectTiers g maxm (pr :: prs) (sel, t) = selectTiers g maxm prs (sel, t) := by
  rw [selectTiers, hg]

theorem select_break_counterexample :
    select_points_by_priority cxGroupsC1 60 = []
      ∧ cxPointB.estimated_time + 10 ≤ (60 : ℤ)
      ∧ cxPointB ∈ sortByUrgencyDesc [cxPointA, cxPointB] := by
  refine ⟨?_, by decide, by rw [cx_sort_eval]; decide⟩
  have e1 : selectFromTier 60 [cxPointA, cxPointB] ([], 0) = ([], 0) := by
    rw [selectFromTier, if_neg (by decide)]
  unfold select_points_by_priority priority_order
  rw [selectTiers_cons_some (rfl : cxGroupsC1 Priority.EMERGENCIA
      = some [cxPointA, cxPointB]), cx_sort_eval, e1, if_neg (by decide),
    selectTiers_cons_none (rfl : cxGroupsC1 Priority.URGENTE = none),
    selectTiers_cons_none (rfl : cxGroupsC1 Priority.ALTA = none),
    selectTiers_cons_none (rfl : cxGroupsC1 Priority.MEDIA = none),
    selectTiers_cons_none (rfl : cxGroupsC1 Priority.BAIXA = none),
    selectTiers]

theorem selectFromTier_prefix (maxm : ℤ) :
    ∀ (ps sel : List MaintenancePoint) (t : ℤ),
      ∃ k, (selectFromTier maxm ps (sel, t)).1 = sel ++ ps.take k
  | [], sel, t => ⟨0, by rw [selectFromTier]; simp⟩
  | p :: ps, sel, t => by
    rw [selectFromTier]
    by_cases hfit : t + (p.estimated_time + 10) ≤ maxm
    · rw [if_pos hfit]
      obtain ⟨k, hk⟩ :=
        selectFromTier_prefix maxm ps (sel ++ [p]) (t + (p.estimated_time + 10))
      exact ⟨k + 1, by rw [hk]; simp⟩
    · rw [if_neg hfit]
      exact ⟨0, by simp⟩

theorem flatMap_zip_zero {γ : Type} (f : Priority × ℕ → List γ)
    (hf : ∀ a, f (a, 0) = []) :
    ∀ prs : List Priority,
      (prs.zip (List.replicate prs.length 0)).flatMap f = []
  | [] => rfl
  | pr :: prs => by
    simp only [List.length_cons, List.replicate, List.zip_cons_cons,
      List.flatMap_cons, hf, List.nil_append]
    exact flatMap_zip_zero f hf prs

theorem selectTiers_prefix (g : Priority → Option (List MaintenancePoint))
    (maxm : ℤ) :
    ∀ (prs : List Priority) (sel : List MaintenancePoint) (t : ℤ),
      ∃ ks : List ℕ, ks.length = prs.length ∧
        (selectTiers g maxm prs (sel, t)).1
          = sel ++ (prs.zip ks).flatMap
              (fun x => (sortByUrgencyDesc ((g x.1).getD [])).take x.2)
  | [], sel, t => ⟨[], rfl, by rw [selectTiers]; simp⟩
  | pr :: prs, sel, t => by
    cases hg : g pr with
    | none =>
      obtain ⟨ks, hlen, hks⟩ := selectTiers_prefix g maxm prs sel t
      refine ⟨0 :: ks, by simp [hlen], ?_⟩
      rw [selectTiers_cons_none hg, hks]
      simp [hg]
    | some ps =>
      rw [selectTiers_cons_some hg]
      obtain ⟨k, hk⟩ := selectFromTier_prefix maxm (sortByUrgencyDesc ps) sel t
      by_cases hstop : maxm ≤ (selectFromTier maxm (sortByUrgencyDesc ps) (sel, t)).2
      · refine ⟨k :: List.replicate prs.length 0, by simp, ?_⟩
        rw [if_pos hstop, hk]
        simp only [List.zip_cons_cons, List.flatMap_cons]
        rw [flatMap_zip_zero _ (fun a => rfl) prs]
        simp [hg]
      · obtain ⟨ks, hlen, hks⟩ := selectTiers_prefix g maxm prs
          (selectFromTier maxm (sortByUrgencyDesc ps) (sel, t)).1
          (selectFromTier maxm (sortByUrgencyDesc ps) (sel, t)).2
        refine ⟨k :: ks, by simp [hlen], ?_⟩
        rw [if_neg hstop]
        have hks' : (selectTiers g maxm prs
            (selectFromTier maxm (sortByUrgencyDesc ps) (sel, t))).1
            = (selectFromTier maxm (sortByUrgencyDesc ps) (sel, t)).1
              ++ (prs.zip ks).flatMap
                (fun x => (sortByUrgencyDesc ((g x.1).getD [])).take x.2) := hks
        rw [hks', hk]
        simp [hg]

/-- C1 (amended): when a point of the tier being scanned does not fit, the
selector abandons the rest of that tier (moving on to the next tier when the
budget is not yet exhausted): the selection is the concatenation, over the
priority tiers in order, of a contiguous *prefix* of each tier's
score-sorted list — so a later, shorter point of the same tier is never
admitted after a rejection. -/
theorem select_tier_prefix (g : Priority → Option (List MaintenancePoint))
    (maxMinutes : ℤ) :
    ∃ ks : List ℕ, ks.length = priority_order.length ∧
      select_points_by_priority g maxMinutes
        = (priority_order.zip ks).flatMap
            (fun x => (sortByUrgencyDesc ((g x.1).getD [])).take x.2) := by
  obtain ⟨ks, hlen, hks⟩ := selectTiers_prefix g maxMinutes priority_order [] 0
  refine ⟨ks, hlen, ?_⟩
  rw [select_points_by_priority, hks]
  simp

/-! ## 2-opt facts (claims C3, C5, C6, C9) -/

section TwoOptTheorems

variable {P : Type} [Inhabited P] {α : Type} [LinearOrderedAddCommGroup α]

theorem headI_eq_iget (l : List P) : l.headI = l.head?.iget := by
  cases l <;> rfl

/-- C9: `_two_opt_improvement` returns a rearrangement of its input in which
the first and the last element are unchanged — every accepted segment
reversal covers only interior indices, so the endpoints of the route (and of
the closing edge) are never moved. -/
theorem two_opt_endpoints_fixed (d : P → P → α) (hd : ∀ a b, d a b = d b a)
    (route : List P) :
    two_opt_improvement d hd route ~ route
      ∧ (two_opt_improvement d hd route).head? = route.head?
      ∧ (two_opt_improvement d hd route).getLast? = route.getLast? := by
  unfold two_opt_improvement
  by_cases h4 : route.length < 4
  · rw [if_pos h4]
    exact ⟨List.Perm.refl _, rfl, rfl⟩
  · rw [if_neg h4]
    obtain ⟨h1, h2, h3, _, _⟩ := twoOptLoop_spec d hd route
    exact ⟨h1, h2, h3⟩

/-- Witness for `two_opt_endpoints_fixed` at a concrete distance and route. -/
theorem two_opt_endpoints_fixed_witness :
    two_opt_improvement (fun _ _ => (0 : ℚ)) (fun _ _ => rfl)
        ([0, 1, 2, 3] : List ℕ) ~ [0, 1, 2, 3]
      ∧ (two_opt_improvement (fun _ _ => (0 : ℚ)) (fun _ _ => rfl)
          ([0, 1, 2, 3] : List ℕ)).head? = ([0, 1, 2, 3] : List ℕ).head?
      ∧ (two_opt_improvement (fun _ _ => (0 : ℚ)) (fun _ _ => rfl)
          ([0, 1, 2, 3] : List ℕ)).getLast? = ([0, 1, 2, 3] : List ℕ).getLast? :=
  two_opt_endpoints_fixed (fun _ _ => (0 : ℚ)) (fun _ _ => rfl) [0, 1, 2, 3]

/-- C6: the 2-opt refiner is idempotent: refining an already refined route
returns it unchanged (the refined route admits no further improving pass). -/
theorem two_opt_idempotent (d : P → P → α) (hd : ∀ a b, d a b = d b a)
    (route : List P) :
    two_opt_improvement d hd (two_opt_improvement d hd route)
      = two_opt_improvement d hd route := by
  by_cases h4 : route.length < 4
  · unfold two_opt_improvement
    rw [if_pos h4, if_pos h4]
  · obtain ⟨hperm, _, _, _, hfix⟩ := twoOptLoop_spec d hd route
    have houter : two_opt_improvement d hd route = twoOptLoop d hd route := by
      unfold two_opt_improvement

      rw [if_neg h4]
    rw [houter]
    have hlen : (twoOptLoop d hd route).length = route.length := hperm.length_eq
    have h4' : ¬(twoOptLoop d hd route).length < 4 := by
      rw [hlen]
      exact h4
    unfold two_opt_improvement
    rw [if_neg h4']
    set s := twoOptLoop d hd route with hs
    rw [twoOptLoop, hfix]
    simp

/-- Witness for `two_opt_idempotent` at a concrete distance and route. -/
theorem two_opt_idempotent_witness :
    two_opt_improvement (fun _ _ => (0 : ℚ)) (fun _ _ => rfl)
        (two_opt_improvement (fun _ _ => (0 : ℚ)) (fun _ _ => rfl)
          ([0, 1, 2, 3] : List ℕ))
      = two_opt_improvement (fun _ _ => (0 : ℚ)) (fun _ _ => rfl)
          ([0, 1, 2, 3] : List ℕ) :=
  two_opt_idempotent (fun _ _ => (0 : ℚ)) (fun _ _ => rfl) [0, 1, 2, 3]

/-- C5: for routes of length at least 4, the cyclic tour length after the
2-opt refiner — consecutive distances plus the closing edge, i.e.
`_calculate_total_distance` — does not exceed that of the input route. -/
theorem two_opt_tour_nonincreasing (d : P → P → α)
    (hd : ∀ a b, d a b = d b a) (route : List P) (h4 : 4 ≤ route.length) :
    calculate_total_distance d (two_opt_improvement d hd route)
      ≤ calculate_total_distance d route := by
  have hnot : ¬route.length < 4 := by omega
  unfold two_opt_improvement
  rw [if_neg hnot]
  obtain ⟨hperm, hhead, hlast, hpath, _⟩ := twoOptLoop_spec d hd route
  have hlen : (twoOptLoop d hd route).length = route.length := hperm.length_eq
  have h2 : ¬route.length < 2 := by omega
  have h2' : ¬(twoOptLoop d hd route).length < 2 := by
    rw [hlen]
    exact h2
  unfold calculate_total_distance
  rw [if_neg h2, if_neg h2']
  have hh : (twoOptLoop d hd route).headI = route.headI := by
    rw [headI_eq_iget, headI_eq_iget, hhead]
  have hl : (twoOptLoop d hd route).getLastI = route.getLastI := by
    rw [List.getLastI_eq_getLast?, List.getLastI_eq_getLast?, hlast]
  rw [hh, hl]
  exact add_le_add_right hpath _

/-- Witness for `two_opt_tour_nonincreasing` at a concrete route of
length 4. -/
theorem two_opt_tour_nonincreasing_witness :
    (4 ≤ ([0, 1, 2, 3] : List ℕ).length)
      ∧ calculate_total_distance (fun _ _ => (0 : ℚ))
          (two_opt_improvement (fun _ _ => (0 : ℚ)) (fun _ _ => rfl)
            ([0, 1, 2, 3] : List ℕ))
        ≤ calculate_total_distance (fun _ _ => (0 : ℚ)) [0, 1, 2, 3] :=
  ⟨by decide,
   two_opt_tour_nonincreasing (fun _ _ => (0 : ℚ)) (fun _ _ => rfl)
     [0, 1, 2, 3] (by decide)⟩

end TwoOptTheorems

/-- The scan range asserted by the spec (§4.5), as a second definition
following the spec's words: all index pairs `(i, j)` with `1 ≤ i < j ≤ n`
and `j - i ≠ 1` — in particular the pairs with `j = n`. -/
def specScanPairs (n : ℕ) : List (ℕ × ℕ) :=
  ((List.range' 1 (n - 1)).flatMap fun i =>
    (List.range' (i + 1) (n - i)).map fun j => (i, j)).filter
    (fun p => decide (p.2 - p.1 ≠ 1))

/-- Symmetric distance table on four labelled points, keyed by the unordered
pair: `d(0,1) = d(1,2) = d(2,3) = 1`, `d(0,3) = 10`, `d(0,2) = d(1,3) = 5`. -/
def dExTable (a b : ℕ) : ℤ :=
  if a = 0 ∧ b = 1 then 1
  else if a = 1 ∧ b = 2 then 1
  else if a = 2 ∧ b = 3 then 1
  else if a = 0 ∧ b = 3 then 10
  else if a = 0 ∧ b = 2 then 5
  else if a = 1 ∧ b = 3 then 5
  else 0

def dEx (a b : ℕ) : ℤ := dExTable (min a b) (max a b)

theorem dEx_symm (a b : ℕ) : dEx a b = dEx b a := by
  unfold dEx
  rw [Nat.min_comm, Nat.max_comm]

/-- C3 counterexample: the pair `(i, j) = (2, 4)` belongs to the scan range
claimed by the spec for `n = 4` but is never scanned by the code (`j` stops
at `n - 1`); on the symmetric distance `dEx`, the cyclic exchange at
`(2, 4)` — new edges `(r1, r3), (r2, r0)` against old edges
`(r1, r2), (r3, r0)` — is strictly improving, yet the pass over
`[0, 1, 2, 3]` finds no improvement and reports `improved = False`. -/
theorem two_opt_closing_edge_ignored :
    (2, 4) ∈ specScanPairs 4 ∧ (2, 4) ∉ scanPairs 4
      ∧ twoOptPass dEx [0, 1, 2, 3] = ([0, 1, 2, 3], false)
      ∧ dEx 1 3 + dEx 2 0 < dEx 1 2 + dEx 3 0 := by
  refine ⟨by decide, by decide, by decide, by decide⟩

/-- C3 (amended): the nested loops scan exactly the pairs `(i, j)` with
`1 ≤ i ≤ n - 3` and `i + 1 ≤ j ≤ n - 1` (pairs with `j - i = 1` are then
skipped in the body); the pair with `j = n` is never scanned, so the closing
edge from the last point back to the first never participates in the
improvement decisions. -/
theorem two_opt_scan_range (n i j : ℕ) :
    ((i, j) ∈ scanPairs n ↔ 1 ≤ i ∧ i + 3 ≤ n ∧ i + 1 ≤ j ∧ j + 1 ≤ n)
      ∧ (i, n) ∉ scanPairs n := by
  refine ⟨mem_scanPairs n i j, fun hmem => ?_⟩
  have h := (mem_scanPairs n i n).1 hmem
  omega

/-! ## Route pipeline facts (claims C7, C8) -/

section PipelineTheorems

variable {α : Type} [LinearOrderedAddCommGroup α]

/-- C8: with no point of the requested crew type (in particular for an empty
collection), `optimize_route` returns, without error, a `RouteResult` with an
empty route, zero total distance, zero total time and an empty statistics
map. -/
theorem optimize_route_no_team_points
    (d : MaintenancePoint → MaintenancePoint → α) (hd : ∀ a b, d a b = d b a)
    (dbscan : List MaintenancePoint → List (ℤ × List MaintenancePoint))
    (connectMulti : List (List MaintenancePoint) → Option MaintenancePoint →
      List MaintenancePoint)
    (points : List MaintenancePoint) (tt : TeamType) (maxh : ℤ)
    (start : Option MaintenancePoint)
    (h : points.filter (fun p => decide (p.team_type = tt)) = []) :
    optimize_route d hd dbscan connectMulti points tt maxh start
      = ⟨[], 0, 0, tt, []⟩ := by
  unfold optimize_route
  rw [h]
  rfl

/-- Witness for `optimize_route_no_team_points` on the empty collection. -/
theorem optimize_route_no_team_points_witness :
    optimize_route (fun _ _ => (0 : ℚ)) (fun _ _ => rfl) (fun _ => [])
        (fun _ _ => []) [] TeamType.ASFALTO 8 none
      = ⟨[], 0, 0, TeamType.ASFALTO, []⟩ :=
  optimize_route_no_team_points (fun _ _ => (0 : ℚ)) (fun _ _ => rfl)
    (fun _ => []) (fun _ _ => []) [] TeamType.ASFALTO 8 none rfl

theorem selectTiers_all_none {g : Priority → Option (List MaintenancePoint)}
    {maxm : ℤ} :
    ∀ (prs : List Priority) (st : List MaintenancePoint × ℤ),
      (∀ pr ∈ prs, g pr = none) → selectTiers g maxm prs st = st
  | [], st, _ => by
    obtain ⟨sel, t⟩ := st
    rw [selectTiers]
  | pr :: prs, st, h => by
    obtain ⟨sel, t⟩ := st
    rw [selectTiers_cons_none (h pr (by simp))]
    exact selectTiers_all_none prs (sel, t) (fun x hx => h x (by simp [hx]))

theorem selectTiers_skip_prefix {g : Priority → Option (List MaintenancePoint)}
    {maxm : ℤ} :
    ∀ (pre rest : List Priority) (st : List MaintenancePoint × ℤ),
      (∀ pr ∈ pre, g pr = none) →
      selectTiers g maxm (pre ++ rest) st = selectTiers g maxm rest st
  | [], _, _, _ => rfl
  | pr :: pre, rest, st, h => by
    obtain ⟨sel, t⟩ := st
    rw [List.cons_append, selectTiers_cons_none (h pr (by simp))]
    exact selectTiers_skip_prefix pre rest (sel, t)
      (fun x hx => h x (by simp [hx]))

theorem group_by_priority_single_eq (p : MaintenancePoint) :
    group_by_priority [p] p.priority = some [p] := by
  unfold group_by_priority
  simp

theorem group_by_priority_single_ne (p : MaintenancePoint) (pr : Priority)
    (hne : pr ≠ p.priority) : group_by_priority [p] pr = none := by
  unfold group_by_priority
  simp [Ne.symm hne]

theorem select_single (p : MaintenancePoint) (maxm : ℤ)
    (hfit : p.estimated_time + 10 ≤ maxm) :
    select_points_by_priority (group_by_priority [p]) maxm = [p] := by
  have hsort : sortByUrgencyDesc [p] = [p] := by
    rw [sortByUrgencyDesc, List.mergeSort_singleton]
  have htier : selectFromTier maxm [p] ([], 0)
      = ([p], p.estimated_time + 10) := by
    rw [selectFromTier, if_pos (by omega), selectFromTier]
    simp
  obtain ⟨pre, post, hsplit, hpre, hpost⟩ :
      ∃ pre post, priority_order = pre ++ p.priority :: post
        ∧ p.priority ∉ pre ∧ p.priority ∉ post := by
    cases hp : p.priority
    · exact ⟨[], [Priority.URGENTE, Priority.ALTA, Priority.MEDIA,
        Priority.BAIXA], by decide, by decide, by decide⟩
    · exact ⟨[Priority.EMERGENCIA], [Priority.ALTA, Priority.MEDIA,
        Priority.BAIXA], by decide, by decide, by decide⟩
    · exact ⟨[Priority.EMERGENCIA, Priority.URGENTE], [Priority.MEDIA,
        Priority.BAIXA], by decide, by decide, by decide⟩
    · exact ⟨[Priority.EMERGENCIA, Priority.URGENTE, Priority.ALTA],
        [Priority.BAIXA], by decide, by decide, by decide⟩
    · exact ⟨[Priority.EMERGENCIA, Priority.URGENTE, Priority.ALTA,
        Priority.MEDIA], [], by decide, by decide, by decide⟩
  unfold select_points_by_priority
  rw [hsplit, selectTiers_skip_prefix pre _ ([], 0)
    (fun pr hpr => group_by_priority_single_ne p pr
      (fun he => hpre (he ▸ hpr)))]
  rw [selectTiers_cons_some (group_by_priority_single_eq p), hsort, htier]
  by_cases hstop : maxm ≤ p.estimated_time + 10
  · rw [if_pos (show maxm ≤ (([p], p.estimated_time + 10) :
        List MaintenancePoint × ℤ).2 from hstop)]
  · rw [if_neg (show ¬maxm ≤ (([p], p.estimated_time + 10) :
        List MaintenancePoint × ℤ).2 from hstop)]
    rw [selectTiers_all_none post ([p], p.estimated_time + 10)
      (fun pr hpr => group_by_priority_single_ne p pr
        (fun he => hpost (he ▸ hpr)))]

theorem optimize_clusters_single (d : MaintenancePoint → MaintenancePoint → α)
    (p : MaintenancePoint) : optimize_clusters d [p] [(0, [p])] = [[p]] := by
  have hptc : point_to_cluster [(0, [p])] p = 0 := by
    unfold point_to_cluster
    simp [List.find?]
  unfold optimize_clusters
  rw [group_by_cluster]
  simp only [List.any_nil, Bool.false_eq_true, if_false, List.nil_append]
  rw [group_by_cluster]
  simp [nearest_neighbor]

/-- C7 (amended): when exactly one point of the requested crew type is
present *and it fits the shift budget* (`estimated_time + 10 ≤ max_hours*60`),
`optimize_route` returns that point as the sole stop with total distance `0`
and total time equal to its estimated time; the result does not depend on
the clustering or MST collaborators, and the 2-opt refiner leaves the
one-stop route untouched. -/
theorem optimize_route_single (d : MaintenancePoint → MaintenancePoint → α)
    (hd : ∀ a b, d a b = d b a)
    (dbscan : List MaintenancePoint → List (ℤ × List MaintenancePoint))
    (connectMulti : List (List MaintenancePoint) → Option MaintenancePoint →
      List MaintenancePoint)
    (points : List MaintenancePoint) (tt : TeamType) (maxh : ℤ)
    (start : Option MaintenancePoint) (p : MaintenancePoint)
    (hfilter : points.filter (fun q => decide (q.team_type = tt)) = [p])
    (hfit : p.estimated_time + 10 ≤ maxh * 60) :
    (optimize_route d hd dbscan connectMulti points tt maxh start).route = [p]
      ∧ (optimize_route d hd dbscan connectMulti points tt maxh
          start).total_distance = 0
      ∧ (optimize_route d hd dbscan connectMulti points tt maxh
          start).total_time = p.estimated_time := by
  simp only [optimize_route]
  rw [hfilter]
  rw [if_neg (by simp : ¬(List.isEmpty [p] = true))]
  rw [select_single p (maxh * 60) hfit]
  rw [show create_geographical_clusters dbscan [p] = [(0, [p])] from by
    rw [create_geographical_clusters, if_pos (by simp)]]
  rw [optimize_clusters_single d p]
  rw [show connect_clusters connectMulti [[p]] start = [p] from rfl]
  rw [show two_opt_improvement d hd [p] = [p] from by
    rw [two_opt_improvement, if_pos (by simp)]]
  refine ⟨rfl, ?_, ?_⟩
  · show calculate_total_distance d [p] = 0
    rw [calculate_total_distance, if_pos (by simp)]
  · show ([p].map (fun q => q.estimated_time)).sum = p.estimated_time
    simp

/-- Witness point for `optimize_route_single`: fits an 8-hour shift. -/
def cxPointFit : MaintenancePoint :=
  { latitude := 0, longitude := 0, address := "Fit",
    problem_type := ProblemType.buraco_asfalto,
    priority := Priority.EMERGENCIA, team_type := TeamType.ASFALTO,
    problem_size := "grande", estimated_time := 45,
    neighborhood := "Centro", region := "Centro", id := some "fit" }

/-- Witness for `optimize_route_single` at a concrete fitting point. -/
theorem optimize_route_single_witness :
    (optimize_route (fun _ _ => (0 : ℚ)) (fun _ _ => rfl) (fun _ => [])
        (fun _ _ => []) [cxPointFit] TeamType.ASFALTO 8 none).route
        = [cxPointFit]
      ∧ (optimize_route (fun _ _ => (0 : ℚ)) (fun _ _ => rfl) (fun _ => [])
          (fun _ _ => []) [cxPointFit] TeamType.ASFALTO 8 none).total_distance
        = 0
      ∧ (optimize_route (fun _ _ => (0 : ℚ)) (fun _ _ => rfl) (fun _ => [])
          (fun _ _ => []) [cxPointFit] TeamType.ASFALTO 8 none).total_time
        = cxPointFit.estimated_time :=
  optimize_route_single (fun _ _ => (0 : ℚ)) (fun _ _ => rfl) (fun _ => [])
    (fun _ _ => []) [cxPointFit] TeamType.ASFALTO 8 none cxPointFit
    (by decide) (by decide)

/-- C7 counterexample point: the sole point of its crew type, but too long
for the default 8-hour shift (`500 + 10 > 480`). -/
def cxPointC7 : MaintenancePoint :=
  { latitude := 0, longitude := 0, address := "C7",
    problem_type := ProblemType.buraco_asfalto,
    priority := Priority.EMERGENCIA, team_type := TeamType.ASFALTO,
    problem_size := "grande", estimated_time := 500,
    neighborhood := "X", region := "X", id := some "c7" }

/-- C7 counterexample: with exactly one point of the requested crew type but
`estimated_time + 10 > max_hours * 60`, the selector rejects it and
`optimize_route` returns an *empty* route, not the one-stop route the claim
promises. -/
theorem optimize_route_single_overbudget :
    (optimize_route (fun _ _ => (0 : ℚ)) (fun _ _ => rfl) (fun _ => [])
        (fun _ _ => []) [cxPointC7] TeamType.ASFALTO 8 none).route = []
      ∧ (optimize_route (fun _ _ => (0 : ℚ)) (fun _ _ => rfl) (fun _ => [])
          (fun _ _ => []) [cxPointC7] TeamType.ASFALTO 8 none).route
        ≠ [cxPointC7] := by
  have hsort : sortByUrgencyDesc [cxPointC7] = [cxPointC7] := by
    rw [sortByUrgencyDesc, List.mergeSort_singleton]
  have hg1 : group_by_priority [cxPointC7] Priority.EMERGENCIA
      = some [cxPointC7] := by decide
  have hg2 : group_by_priority [cxPointC7] Priority.URGENTE = none := by decide
  have hg3 : group_by_priority [cxPointC7] Priority.ALTA = none := by decide
  have hg4 : group_by_priority [cxPointC7] Priority.MEDIA = none := by decide
  have hg5 : group_by_priority [cxPointC7] Priority.BAIXA = none := by decide
  have hsel : select_points_by_priority (group_by_priority [cxPointC7])
      (8 * 60) = [] := by
    unfold select_points_by_priority priority_order
    rw [selectTiers_cons_some hg1, hsort]
    rw [show selectFromTier (8 * 60) [cxPointC7] ([], 0) = ([], 0) from by
      rw [selectFromTier, if_neg (by decide)]]
    rw [if_neg (by decide : ¬(8 * 60 : ℤ) ≤
      (([], 0) : List MaintenancePoint × ℤ).2)]
    rw [selectTiers_cons_none hg2, selectTiers_cons_none hg3,
      selectTiers_cons_none hg4, selectTiers_cons_none hg5, selectTiers]
  have hroute : (optimize_route (fun _ _ => (0 : ℚ)) (fun _ _ => rfl)
      (fun _ => []) (fun _ _ => []) [cxPointC7] TeamType.ASFALTO 8
      none).route = [] := by
    simp only [optimize_route]
    rw [show [cxPointC7].filter
        (fun q => decide (q.team_type = TeamType.ASFALTO)) = [cxPointC7]
      from rfl]
    rw [if_neg (by simp : ¬(List.isEmpty [cxPointC7] = true))]
    rw [hsel]
    rfl
  exact ⟨hroute, by rw [hroute]; simp⟩

end PipelineTheorems

/-! ## Distance cache facts (claim C10) -/

/-- First aliasing point for C10: unsaved-style duplicate id `"dup"`. -/
def cxP1 : MaintenancePoint :=
  { latitude := 0, longitude := 0, address := "P1",
    problem_type := ProblemType.vazamento_agua, priority := Priority.ALTA,
    team_type := TeamType.HIDRAULICA, problem_size := "m",
    estimated_time := 30, neighborhood := "N", region := "R",
    id := some "dup" }

/-- Second aliasing point for C10: distinct from `cxP1` but with the same
id. -/
def cxP2 : MaintenancePoint :=
  { latitude := 1, longitude := 0, address := "P2",
    problem_type := ProblemType.vazamento_agua, priority := Priority.ALTA,
    team_type := TeamType.HIDRAULICA, problem_size := "m",
    estimated_time := 30, neighborhood := "N", region := "R",
    id := some "dup" }

/-- Third point for C10, with its own id. -/
def cxP3 : MaintenancePoint :=
  { latitude := 5, longitude := 0, address := "P3",
    problem_type := ProblemType.vazamento_agua, priority := Priority.ALTA,
    team_type := TeamType.HIDRAULICA, problem_size := "m",
    estimated_time := 30, neighborhood := "N", region := "R",
    id := some "z" }

/-- Distance stand-in distinguishing `cxP1` from `cxP2` by their latitude. -/
def havEx (c1 c2 : ℚ × ℚ) : ℤ :=
  if c1.1 = 0 then 0 else 1

/-- C10: on an optimizer instance whose points have pairwise-distinct ids,
`_get_distance` is exactly `haversine_distance` of the coordinates (and the
cache stays coherent); without that precondition the id-keyed cache aliases:
two distinct points sharing an id (`cxP1 ≠ cxP2`, both `id = "dup"`) make
the second lookup return the first pair's cached distance instead of its
own. -/
theorem get_distance_cache_correct :
    (∀ (α : Type) (hav : ℚ × ℚ → ℚ × ℚ → α)
       (points : List MaintenancePoint)
       (cache : List ((Option String × Option String) × α))
       (p1 p2 : MaintenancePoint),
       DistinctIds points → CacheOK hav points cache →
       p1 ∈ points → p2 ∈ points →
       (get_distance hav cache p1 p2).1 = hav p1.coordinates p2.coordinates
         ∧ CacheOK hav points (get_distance hav cache p1 p2).2)
    ∧ (get_distance havEx (get_distance havEx [] cxP1 cxP3).2 cxP2 cxP3).1
        ≠ havEx cxP2.coordinates cxP3.coordinates
    ∧ cxP1 ≠ cxP2 ∧ cxP1.id = cxP2.id := by
  refine ⟨?_, by decide, by decide, by decide⟩
  intro α hav points cache p1 p2 hdist hok h1 h2
  simp only [get_distance]
  cases hfind : cache.find? (fun e => decide (e.1 = (p1.id, p2.id))) with
  | none =>
    refine ⟨rfl, ?_⟩
    intro e he q1 hq1 q2 hq2 hkey
    rcases List.mem_cons.1 he with rfl | he'
    · simp only [Prod.mk.injEq] at hkey
      have hq1' : p1 = q1 := hdist p1 h1 q1 hq1 hkey.1
      have hq2' : p2 = q2 := hdist p2 h2 q2 hq2 hkey.2
      rw [← hq1', ← hq2']
    · exact hok e he' q1 hq1 q2 hq2 hkey
  | some e =>
    have hpred := List.find?_some hfind
    have hmem := List.mem_of_find?_eq_some hfind
    simp only [decide_eq_true_eq] at hpred
    exact ⟨hok e hmem p1 h1 p2 h2 hpred, hok⟩

/-- Witness for the universally quantified half of
`get_distance_cache_correct`, on an instance with distinct ids and an empty
cache. -/
theorem get_distance_cache_correct_witness :
    (get_distance havEx ([] : List ((Option String × Option String) × ℤ))
        cxP1 cxP3).1 = havEx cxP1.coordinates cxP3.coordinates :=
  (get_distance_cache_correct.1 ℤ havEx [cxP1, cxP3] [] cxP1 cxP3
    (show DistinctIds [cxP1, cxP3] by unfold DistinctIds; decide)
    (fun e he => absurd he (List.not_mem_nil e))
    (by decide) (by decide)).1

/-! ## Load balancer failure (claim C2) -/

/-- First load-balancer point: `asfalto`, 500 minutes. -/
def cxQ1 : MaintenancePoint :=
  { latitude := 0, longitude := 0, address := "Q1",
    problem_type := ProblemType.buraco_asfalto,
    priority := Priority.EMERGENCIA, team_type := TeamType.ASFALTO,
    problem_size := "grande", estimated_time := 500,
    neighborhood := "Centro", region := "Centro", id := some "q1" }

/-- Second load-balancer point: `asfalto`, 500 minutes. -/
def cxQ2 : MaintenancePoint :=
  { latitude := 0, longitude := 0, address := "Q2",
    problem_type := ProblemType.buraco_asfalto, priority := Priority.ALTA,
    team_type := TeamType.ASFALTO, problem_size := "grande",
    estimated_time := 500, neighborhood := "Centro", region := "Centro",
    id := some "q2" }

theorem cx_prox_eval :
    create_proximity_clusters (fun _ _ => (0 : ℚ)) (1 / 2) [cxQ1, cxQ2]
        (fun _ => [])
      = appendAt (appendAt (fun _ => []) cxQ1.id cxQ2) cxQ2.id cxQ1 := by
  have hc : ((0 : ℚ) ≤ 1 / 2) = True := eq_true (by norm_num)
  simp only [create_proximity_clusters, proxInner, hc, if_true]

theorem cx_scored_eval :
    calculate_priority_scores (fun _ _ => (0 : ℚ)) 0 [cxQ1, cxQ2]
      = [score_point 1 0 cxQ1, score_point 1 0 cxQ2] := by
  simp only [calculate_priority_scores]
  rw [cx_prox_eval]
  have hlen1 : (appendAt (appendAt (fun _ => []) cxQ1.id cxQ2) cxQ2.id cxQ1
      cxQ1.id).length = 1 := by decide
  have hlen2 : (appendAt (appendAt (fun _ => []) cxQ1.id cxQ2) cxQ2.id cxQ1
      cxQ2.id).length = 1 := by decide
  simp only [List.map_cons, List.map_nil]
  rw [hlen1, hlen2]
  unfold sortScores
  rw [mergeSort_pair, if_pos]
  simp only [decide_eq_true_eq]
  norm_num [score_point, cxQ1, cxQ2, Priority.value]

/-- C2 (code bug): on two 500-minute `asfalto` points with a single `asfalto`
crew and an 8-hour shift, `optimize_team_schedule` raises
`IndexError` — the first rejection pops the only crew without pushing it
back, so the second point pops from an empty heap — instead of silently
dropping the unassignable points as the spec requires. -/
theorem optimize_team_schedule_raises :
    optimize_team_schedule (fun _ _ => (0 : ℚ)) 0 [cxQ1, cxQ2]
        [(TeamType.ASFALTO, 1)] 8
      = Except.error "IndexError: index out of range" := by
  unfold optimize_team_schedule
  rw [cx_scored_eval]
  rfl

end UrbanDna
